import Mathlib

/-!
# Unit-of-work coordinator (`pkg/uow.go`)

A shallow embedding of the `uow` coordinator.  A method with receiver `u *uow`
becomes a function that takes the coordinator value and returns a `Step`: its
result, the coordinator value after the call and the list of calls it made on
its collaborators (`database/sql` handles, repository factories and the
unit-of-work body), in program order.

`database/sql` is an external collaborator: it is a parameter `sql : Sql W`
of every operation, where `W` is the state that lives behind the `*sql.DB`
pointer (the connections and the transactions opened on them).
-/

namespace Uow

/-- Stand-in for `context.Context`; the coordinator only forwards it. -/
abbrev Context := Nat

/-- Identity of a non-nil `*sql.Tx`.  A field of Go type `*sql.Tx` is an
`Option Tx`, with `none` for the nil pointer. -/
abbrev Tx := Nat

/-- A non-nil Go `error` value.  `ext` is a value made outside the package
(by the body of a unit of work, or by `database/sql`); `errorf` is a value
built by one of the `fmt.Errorf` calls of `uow.go`.  A Go result of type
`error` is an `Option GoError`, with `none` for nil. -/
inductive GoError where
  | ext (id : Nat) (msg : String)
  | errorf (msg : String)
  deriving DecidableEq, Repr

/-- The method `Error()` of an error value. -/
def GoError.Error : GoError → String
  | .ext _ msg => msg
  | .errorf msg => msg

/-- A Go value of type `any`: the nil interface, or a repository value, of
which the model keeps a tag and the transaction pointer it was built from. -/
inductive Any where
  | nil
  | repo (tag : Nat) (tx : Option Tx)
  deriving DecidableEq, Repr

/-- `RepositoryFactory = func(*sql.Tx) any`.  Factories are total functions of
the pointer they receive (a nil function value is not modelled). -/
abbrev RepositoryFactory := Option Tx → Any

/-- The operations of `database/sql` the coordinator calls: `(*sql.DB).BeginTx`,
`(*sql.Tx).Commit` and `(*sql.Tx).Rollback`, as transitions of the state `W`
behind the database pointer.  `BeginTx` returns a non-nil handle or an
error. -/
structure Sql (W : Type) where
  BeginTx : Context → W → Except GoError Tx × W
  Commit : Tx → W → Option GoError × W
  Rollback : Tx → W → Option GoError × W

/-- A call made on a collaborator. -/
inductive Event where
  | BeginTx (ctx : Context)
  | Commit (tx : Tx)
  | Rollback (tx : Tx)
  | factory (name : String) (arg : Option Tx)
  | fn (ctx : Context)
  deriving DecidableEq, Repr

/-- A run-time panic of the Go program. -/
inductive Panic where
  | nilDereference
  deriving DecidableEq, Repr

/-- The struct `uow`: `db` is the state behind the `*sql.DB` pointer, `tx` the
`*sql.Tx` field, `repositories` the map from names to factories (`none` for
an absent key). -/
structure uow (W : Type) where
  db : W
  tx : Option Tx
  repositories : String → Option RepositoryFactory

/-- What a call leaves behind: the value it returned, the coordinator after
the call, and the calls made on collaborators while it ran, oldest first. -/
structure Step (W : Type) (α : Type) where
  ret : α
  u : uow W
  calls : List Event

/-- `DoFunc = func(context.Context, Uow) error`: the body receives the
coordinator and returns an error or nil, or panics. -/
abbrev DoFunc (W : Type) :=
  Context → uow W → Step W (Except Panic (Option GoError))

/-- `NewUow(db)`: nil transaction pointer and an empty map. -/
def NewUow {W : Type} (db : W) : uow W :=
  { db := db, tx := none, repositories := fun _ => none }

/-- `Register`: `u.repositories[name] = fc`. -/
def Register {W : Type} (name : String) (fc : RepositoryFactory) (u : uow W) : uow W :=
  { u with repositories := fun k => if k = name then some fc else u.repositories k }

/-- `Unregister`: `delete(u.repositories, name)`. -/
def Unregister {W : Type} (name : String) (u : uow W) : uow W :=
  { u with repositories := fun k => if k = name then none else u.repositories k }

/-- `startTx(ctx, failIfStarted)`. -/
def startTx {W : Type} (sql : Sql W) (ctx : Context) (failIfStarted : Bool) (u : uow W) :
    Step W (Option GoError) :=
  match u.tx with
  | some _ =>
    if failIfStarted then
      ⟨some (GoError.errorf "transaction already started"), u, []⟩
    else
      ⟨none, u, []⟩
  | none =>
    match sql.BeginTx ctx u.db with
    | (Except.error err, db1) => ⟨some err, { u with db := db1 }, [Event.BeginTx ctx]⟩
    | (Except.ok tx, db1) => ⟨none, { u with db := db1, tx := some tx }, [Event.BeginTx ctx]⟩

/-- `GetRepository(ctx, name)`; the result is the Go pair `(any, error)`. -/
def GetRepository {W : Type} (sql : Sql W) (ctx : Context) (name : String) (u : uow W) :
    Step W (Any × Option GoError) :=
  let s1 := startTx sql ctx false u
  match s1.ret with
  | some err => ⟨(Any.nil, some err), s1.u, s1.calls⟩
  | none =>
    match s1.u.repositories name with
    | none =>
      ⟨(Any.nil, some (GoError.errorf ("repository not found: " ++ name))), s1.u, s1.calls⟩
    | some rf => ⟨(rf s1.u.tx, none), s1.u, s1.calls ++ [Event.factory name s1.u.tx]⟩

/-- The helper `rollback()`. -/
def rollback {W : Type} (sql : Sql W) (u : uow W) : Step W (Option GoError) :=
  match u.tx with
  | none => ⟨some (GoError.errorf "no active transaction"), u, []⟩
  | some tx =>
    ⟨(sql.Rollback tx u.db).1, { u with db := (sql.Rollback tx u.db).2, tx := none },
      [Event.Rollback tx]⟩

/-- The value of `fmt.Errorf("rollback error: %s due to: %s", errRb.Error(), err.Error())`. -/
def rollbackErrorf (errRb err : GoError) : GoError :=
  GoError.errorf ("rollback error: " ++ errRb.Error ++ " due to: " ++ err.Error)

/-- `commitOrRollback()`.  `u.tx.Commit()` on a nil pointer panics. -/
def commitOrRollback {W : Type} (sql : Sql W) (u : uow W) :
    Step W (Except Panic (Option GoError)) :=
  match u.tx with
  | none => ⟨Except.error Panic.nilDereference, u, []⟩
  | some tx =>
    match (sql.Commit tx u.db).1 with
    | some err =>
      let s2 := rollback sql { u with db := (sql.Commit tx u.db).2 }
      match s2.ret with
      | some errRb => ⟨Except.ok (some (rollbackErrorf errRb err)), s2.u, Event.Commit tx :: s2.calls⟩
      | none => ⟨Except.ok (some err), s2.u, Event.Commit tx :: s2.calls⟩
    | none =>
      ⟨Except.ok none, { u with db := (sql.Commit tx u.db).2, tx := none }, [Event.Commit tx]⟩

/-- `Do(ctx, fn)`. -/
def Do {W : Type} (sql : Sql W) (ctx : Context) (fn : DoFunc W) (u : uow W) :
    Step W (Except Panic (Option GoError)) :=
  let s1 := startTx sql ctx true u
  match s1.ret with
  | some err => ⟨Except.ok (some err), s1.u, s1.calls⟩
  | none =>
    let s2 := fn ctx s1.u
    match s2.ret with
    | Except.error p => ⟨Except.error p, s2.u, s1.calls ++ Event.fn ctx :: s2.calls⟩
    | Except.ok (some err) =>
      let s3 := rollback sql s2.u
      match s3.ret with
      | some errRb =>
        ⟨Except.ok (some (rollbackErrorf errRb err)), s3.u,
          s1.calls ++ Event.fn ctx :: s2.calls ++ s3.calls⟩
      | none => ⟨Except.ok (some err), s3.u, s1.calls ++ Event.fn ctx :: s2.calls ++ s3.calls⟩
    | Except.ok none =>
      let s3 := commitOrRollback sql s2.u
      ⟨s3.ret, s3.u, s1.calls ++ Event.fn ctx :: s2.calls ++ s3.calls⟩

/-! ## A database for the examples -/

/-- Modelled from the spec: the database handle and the transaction handles of
the external-interfaces section (`database/sql` is not part of the
repository).  Beginning fails on a closed database; a handle is resolved by
its first successful `Commit` or `Rollback`, and either call on a resolved
handle fails with the "already resolved" error.  `commitFault` and
`rollbackFault` are failures the driver reports on a handle that is still
open; such a failure leaves the handle open. -/
structure MemDB where
  closed : Bool
  opened : Nat
  resolved : List Tx
  commitFault : Option GoError
  rollbackFault : Option GoError

/-- The error `sql.ErrTxDone`. -/
def ErrTxDone : GoError :=
  GoError.ext 0 "sql: transaction has already been committed or rolled back"

/-- The error `database/sql` returns on a closed database. -/
def errDBClosed : GoError := GoError.ext 1 "sql: database is closed"

/-- Modelled from the spec: the three `database/sql` calls on a `MemDB`. -/
def memSql : Sql MemDB where
  BeginTx := fun _ w =>
    if w.closed then (Except.error errDBClosed, w)
    else (Except.ok w.opened, { w with opened := w.opened + 1 })
  Commit := fun t w =>
    if t ∈ w.resolved then (some ErrTxDone, w)
    else
      match w.commitFault with
      | some e => (some e, w)
      | none => (none, { w with resolved := t :: w.resolved })
  Rollback := fun t w =>
    if t ∈ w.resolved then (some ErrTxDone, w)
    else
      match w.rollbackFault with
      | some e => (some e, w)
      | none => (none, { w with resolved := t :: w.resolved })

/-- A freshly opened database, as `sql.Open("sqlite3", ":memory:")` gives. -/
def openDB : MemDB :=
  { closed := false, opened := 0, resolved := [], commitFault := none, rollbackFault := none }

/-- The factory of the tests: `func(tx *sql.Tx) any { return &repo{tx} }`. -/
def repoFactory : RepositoryFactory := fun tx => Any.repo 1 tx

/-- The coordinator the `Do` tests build: `NewUow(db)` with `repo1` registered. -/
def testUow (db : MemDB) : uow MemDB := Register "repo1" repoFactory (NewUow db)

/-- The error `fmt.Errorf("do error")` of the tests. -/
def doError : GoError := GoError.ext 2 "do error"

/-- The body of `Test_Do_Error`: returns `do error` and touches nothing. -/
def fnFails : DoFunc MemDB := fun _ u => ⟨Except.ok (some doError), u, []⟩

/-- The body of `Test_Do_RollbackError`: rolls the handle back out-of-band
(`impl.tx.Rollback()`) and returns `do error`. -/
def fnRollsBackThenFails : DoFunc MemDB := fun _ u =>
  match u.tx with
  | none => ⟨Except.error Panic.nilDereference, u, []⟩
  | some t =>
    ⟨Except.ok (some doError), { u with db := (memSql.Rollback t u.db).2 }, [Event.Rollback t]⟩

/-- The body of `Test_Do_CommitError`: rolls the handle back out-of-band and
returns nil. -/
def fnRollsBackThenSucceeds : DoFunc MemDB := fun _ u =>
  match u.tx with
  | none => ⟨Except.error Panic.nilDereference, u, []⟩
  | some t =>
    ⟨Except.ok none, { u with db := (memSql.Rollback t u.db).2 }, [Event.Rollback t]⟩

/-- A body that returns nil and touches nothing. -/
def fnSucceeds : DoFunc MemDB := fun _ u => ⟨Except.ok none, u, []⟩

/-- A database whose driver reports `disk full` on commit. -/
def faultyCommitDB : MemDB := { openDB with commitFault := some (GoError.ext 3 "disk full") }

/-- A coordinator that holds the handle `0`, begun on `openDB`. -/
def activeUow : uow MemDB := { testUow { openDB with opened := 1 } with tx := some 0 }

/-- A database that has been closed: `db.Close()` before `NewUow(db)`, as in
`Test_GetRepository_ErrorOnFactory`. -/
def closedDB : MemDB := { openDB with closed := true }

/-! ## Sequences of `Register` and `Unregister` calls -/

/-- A call of `Register` or `Unregister`. -/
inductive RegOp where
  | register (name : String) (fc : RepositoryFactory)
  | unregister (name : String)

/-- The effect of one `Register` or `Unregister` call on the coordinator. -/
def RegOp.apply {W : Type} (op : RegOp) (u : uow W) : uow W :=
  match op with
  | RegOp.register name fc => Register name fc u
  | RegOp.unregister name => Unregister name u

/-- The effect of a sequence of `Register` and `Unregister` calls, first call
first. -/
def applyOps {W : Type} (ops : List RegOp) (u : uow W) : uow W :=
  ops.foldl (fun v op => op.apply v) u

/-- The words of the specification: the sequence contains a `Register(name, _)`
that no later `Unregister(name)` follows. -/
def RegisteredLast (ops : List RegOp) (name : String) : Prop :=
  ∃ (pre : List RegOp) (fc : RepositoryFactory) (post : List RegOp),
    ops = pre ++ RegOp.register name fc :: post ∧
    ∀ op ∈ post, ∀ n : String, op = RegOp.unregister n → n ≠ name

/-! ## Bodies that use the public operations only -/

/-- A unit-of-work body that touches the coordinator through the interface
`Uow` only: it returns, or makes one call of `Register`, `Unregister`,
`GetRepository` or `Do` and goes on according to what the call returned. -/
inductive Prog where
  | ret (err : Option GoError)
  | register (name : String) (fc : RepositoryFactory) (next : Prog)
  | unregister (name : String) (next : Prog)
  | getRepository (ctx : Context) (name : String) (next : Any → Option GoError → Prog)
  | nestedDo (ctx : Context) (body : Prog) (next : Option GoError → Prog)

/-- Running a body on the coordinator.  A panic of a nested `Do` ends the
body. -/
def Prog.run {W : Type} (sql : Sql W) : Prog → uow W → Step W (Except Panic (Option GoError))
  | Prog.ret err, u => ⟨Except.ok err, u, []⟩
  | Prog.register name fc next, u => Prog.run sql next (Register name fc u)
  | Prog.unregister name next, u => Prog.run sql next (Unregister name u)
  | Prog.getRepository ctx name next, u =>
    let s1 := GetRepository sql ctx name u
    let s2 := Prog.run sql (next s1.ret.1 s1.ret.2) s1.u
    ⟨s2.ret, s2.u, s1.calls ++ s2.calls⟩
  | Prog.nestedDo ctx body next, u =>
    let s1 := Do sql ctx (fun _ v => Prog.run sql body v) u
    match s1.ret with
    | Except.error p => ⟨Except.error p, s1.u, s1.calls⟩
    | Except.ok err =>
      let s2 := Prog.run sql (next err) s1.u
      ⟨s2.ret, s2.u, s1.calls ++ s2.calls⟩

/-- The function value `fn` that a body denotes. -/
def Prog.fn {W : Type} (sql : Sql W) (p : Prog) : DoFunc W := fun _ u => Prog.run sql p u

/-- Whether a call is a `BeginTx` on the database handle. -/
def Event.isBegin : Event → Bool
  | Event.BeginTx _ => true
  | _ => false

/-- The number of `BeginTx` calls in a list of calls. -/
def beginCount (calls : List Event) : Nat := calls.countP Event.isBegin

/-- Every factory call in the list received the pointer `arg`. -/
def FactoriesGot (arg : Option Tx) (calls : List Event) : Prop :=
  ∀ (name : String) (a : Option Tx), Event.factory name a ∈ calls → a = arg

/-- A body that fetches `repo1` twice, runs a nested `Do` and fetches `repo1`
again, returning nil. -/
def fetchTwiceAndNest : Prog :=
  Prog.getRepository 0 "repo1" fun _ _ =>
  Prog.getRepository 0 "repo1" fun _ _ =>
  Prog.nestedDo 0 (Prog.getRepository 0 "repo1" fun _ _ => Prog.ret none) fun _ =>
  Prog.getRepository 0 "repo1" fun _ _ => Prog.ret none

/-! ## Counting calls -/

/-- The name a `Register` or `Unregister` call is about. -/
def RegOp.name : RegOp → String
  | RegOp.register name _ => name
  | RegOp.unregister name => name

/-- `Register(name, f1)`, then the calls `mid`, then `Register(name, f2)`, then
the calls `post`. -/
def registerTwice {W : Type} (name : String) (f1 f2 : RepositoryFactory)
    (mid post : List RegOp) (u : uow W) : uow W :=
  applyOps post (Register name f2 (applyOps mid (Register name f1 u)))

/-- Whether a call is the invocation of a repository factory. -/
def Event.isFactory : Event → Bool
  | Event.factory _ _ => true
  | _ => false

/-- The factory invocations in a list of calls, in order. -/
def factoryCalls (calls : List Event) : List Event := calls.filter Event.isFactory

/-- Whether a call is a `Commit` or a `Rollback` on a transaction handle. -/
def Event.isResolution : Event → Bool
  | Event.Commit _ => true
  | Event.Rollback _ => true
  | _ => false

/-- The `Commit` and `Rollback` calls in a list of calls, in order. -/
def resolutionCalls (calls : List Event) : List Event := calls.filter Event.isResolution

/-- A second factory, which builds repositories with another tag. -/
def otherFactory : RepositoryFactory := fun tx => Any.repo 2 tx

/-- A body that fetches `repo1` and returns `do error`. -/
def fetchThenFail : Prog :=
  Prog.getRepository 0 "repo1" fun _ _ => Prog.ret (some doError)

/-- The calls `Register("repo2", f)`, `Unregister("repo1")`,
`GetRepository(ctx, "repo1")`, `GetRepository(ctx, "repo2")`, one after the
other. -/
def registerAndFetch : Prog :=
  Prog.register "repo2" otherFactory <|
  Prog.unregister "repo1" <|
  Prog.getRepository 1 "repo1" fun _ _ =>
  Prog.getRepository 1 "repo2" fun _ _ => Prog.ret none

/-- The text `needle` occurs in the text `hay`: the characters of `needle` are
a contiguous run of the characters of `hay`. -/
def containsText (needle hay : String) : Prop := needle.data <:+: hay.data

instance containsTextDecidable (needle hay : String) : Decidable (containsText needle hay) :=
  inferInstanceAs (Decidable (needle.data <:+: hay.data))

/-- A body that returns an error of its own whose text is
`no active transaction`. -/
def fnSaysNoActive : Prog :=
  Prog.getRepository 0 "repo1" fun _ _ =>
  Prog.ret (some (GoError.ext 4 "no active transaction"))

/-- A body that fetches `repo1` through `GetRepository`, rolls back the
transaction the repository was built with (`r.tx.Rollback()`) and returns
`do error`. -/
def fnRollsBackThroughRepo : DoFunc MemDB := fun ctx u =>
  match (GetRepository memSql ctx "repo1" u).ret.1 with
  | Any.repo _ (some t) =>
    ⟨Except.ok (some doError),
      { (GetRepository memSql ctx "repo1" u).u with
        db := (memSql.Rollback t (GetRepository memSql ctx "repo1" u).u.db).2 },
      (GetRepository memSql ctx "repo1" u).calls ++ [Event.Rollback t]⟩
  | _ =>
    ⟨Except.ok (some doError), (GetRepository memSql ctx "repo1" u).u,
      (GetRepository memSql ctx "repo1" u).calls⟩

/-! ## Error results of `Do` -/

/-- C1: on a coordinator with no active transaction, when begin succeeds, `fn`
returns the error `E` leaving a handle `t` in place, and `Rollback` on `t`
succeeds, `Do` returns the very value `E`. -/
theorem Do_fn_error_rollback_ok {W : Type} (sql : Sql W) (ctx : Context) (fn : DoFunc W)
    (u : uow W) (tx t : Tx) (db1 : W) (E : GoError)
    (hidle : u.tx = none)
    (hbegin : sql.BeginTx ctx u.db = (Except.ok tx, db1))
    (hfn : (fn ctx { u with db := db1, tx := some tx }).ret = Except.ok (some E))
    (hkept : (fn ctx { u with db := db1, tx := some tx }).u.tx = some t)
    (hrb : (sql.Rollback t (fn ctx { u with db := db1, tx := some tx }).u.db).1 = none) :
    (Do sql ctx fn u).ret = Except.ok (some E) := by
  simp [Do, startTx, hidle, hbegin, hfn, rollback, hkept, hrb]

/-- Witness of C1: `Test_Do_Error`, whose `Do` returns `do error` itself. -/
theorem Do_fn_error_rollback_ok_witness :
    (Do memSql 0 fnFails (testUow openDB)).ret = Except.ok (some doError) :=
  Do_fn_error_rollback_ok memSql 0 fnFails (testUow openDB) 0 0
    { openDB with opened := 1 } doError rfl rfl rfl rfl rfl

/-- C2: on a coordinator with no active transaction, when begin succeeds, `fn`
returns an error `e1`, and `Rollback` on the handle `t` the coordinator then
holds fails with `e2`, `Do` returns an error whose message is
`"rollback error: " ++ e2.Error ++ " due to: " ++ e1.Error`. -/
theorem Do_fn_error_rollback_error {W : Type} (sql : Sql W) (ctx : Context) (fn : DoFunc W)
    (u : uow W) (tx t : Tx) (db1 : W) (e1 e2 : GoError)
    (hidle : u.tx = none)
    (hbegin : sql.BeginTx ctx u.db = (Except.ok tx, db1))
    (hfn : (fn ctx { u with db := db1, tx := some tx }).ret = Except.ok (some e1))
    (hkept : (fn ctx { u with db := db1, tx := some tx }).u.tx = some t)
    (hrb : (sql.Rollback t (fn ctx { u with db := db1, tx := some tx }).u.db).1 = some e2) :
    ∃ e : GoError, (Do sql ctx fn u).ret = Except.ok (some e) ∧
      e.Error = "rollback error: " ++ e2.Error ++ " due to: " ++ e1.Error := by
  refine ⟨rollbackErrorf e2 e1, ?_, rfl⟩
  simp [Do, startTx, hidle, hbegin, hfn, rollback, hkept, hrb]

/-- Witness of C2: `Test_Do_RollbackError`, where the body has already rolled
the handle back, so the rollback of `Do` fails with `sql.ErrTxDone`. -/
theorem Do_fn_error_rollback_error_witness :
    ∃ e : GoError, (Do memSql 0 fnRollsBackThenFails (testUow openDB)).ret = Except.ok (some e) ∧
      e.Error = "rollback error: " ++ ErrTxDone.Error ++ " due to: " ++ doError.Error :=
  Do_fn_error_rollback_error memSql 0 fnRollsBackThenFails (testUow openDB) 0 0
    { openDB with opened := 1 } doError ErrTxDone rfl rfl rfl rfl rfl

/-- C3: on a coordinator with no active transaction, when begin succeeds, `fn`
returns nil, `Commit` on the handle `t` the coordinator then holds fails with
`e1` and the `Rollback` that follows fails with `e2`, `Do` returns an error
whose message is `"rollback error: " ++ e2.Error ++ " due to: " ++ e1.Error`;
when both messages are the same `M` that is
`"rollback error: " ++ M ++ " due to: " ++ M`. -/
theorem Do_commit_error_rollback_error {W : Type} (sql : Sql W) (ctx : Context)
    (fn : DoFunc W) (u : uow W) (tx t : Tx) (db1 : W) (e1 e2 : GoError)
    (hidle : u.tx = none)
    (hbegin : sql.BeginTx ctx u.db = (Except.ok tx, db1))
    (hfn : (fn ctx { u with db := db1, tx := some tx }).ret = Except.ok none)
    (hkept : (fn ctx { u with db := db1, tx := some tx }).u.tx = some t)
    (hcommit : (sql.Commit t (fn ctx { u with db := db1, tx := some tx }).u.db).1 = some e1)
    (hrb : (sql.Rollback t
      (sql.Commit t (fn ctx { u with db := db1, tx := some tx }).u.db).2).1 = some e2) :
    ∃ e : GoError, (Do sql ctx fn u).ret = Except.ok (some e) ∧
      e.Error = "rollback error: " ++ e2.Error ++ " due to: " ++ e1.Error ∧
      ∀ M : String, e1.Error = M → e2.Error = M →
        e.Error = "rollback error: " ++ M ++ " due to: " ++ M := by
  refine ⟨rollbackErrorf e2 e1, ?_, rfl, ?_⟩
  · simp [Do, startTx, hidle, hbegin, hfn, commitOrRollback, rollback, hkept, hcommit, hrb]
  · intro M h1 h2
    subst h1
    show "rollback error: " ++ e2.Error ++ " due to: " ++ e1.Error = _
    rw [h2]

/-- Witness of C3: `Test_Do_CommitError`, where the body has already rolled the
handle back out-of-band, so commit and rollback both fail with
`sql.ErrTxDone`. -/
theorem Do_commit_error_rollback_error_witness :
    ∃ e : GoError,
      (Do memSql 0 fnRollsBackThenSucceeds (testUow openDB)).ret = Except.ok (some e) ∧
      e.Error = "rollback error: " ++ ErrTxDone.Error ++ " due to: " ++ ErrTxDone.Error ∧
      ∀ M : String, ErrTxDone.Error = M → ErrTxDone.Error = M →
        e.Error = "rollback error: " ++ M ++ " due to: " ++ M :=
  Do_commit_error_rollback_error memSql 0 fnRollsBackThenSucceeds (testUow openDB) 0 0
    { openDB with opened := 1 } ErrTxDone ErrTxDone rfl rfl rfl rfl rfl rfl

/-- C4: on a coordinator with no active transaction, when begin succeeds, `fn`
returns nil, `Commit` on the handle `t` the coordinator then holds fails with
`E1` and the `Rollback` that follows succeeds, `Do` returns the very value
`E1`. -/
theorem Do_commit_error_rollback_ok {W : Type} (sql : Sql W) (ctx : Context)
    (fn : DoFunc W) (u : uow W) (tx t : Tx) (db1 : W) (E1 : GoError)
    (hidle : u.tx = none)
    (hbegin : sql.BeginTx ctx u.db = (Except.ok tx, db1))
    (hfn : (fn ctx { u with db := db1, tx := some tx }).ret = Except.ok none)
    (hkept : (fn ctx { u with db := db1, tx := some tx }).u.tx = some t)
    (hcommit : (sql.Commit t (fn ctx { u with db := db1, tx := some tx }).u.db).1 = some E1)
    (hrb : (sql.Rollback t
      (sql.Commit t (fn ctx { u with db := db1, tx := some tx }).u.db).2).1 = none) :
    (Do sql ctx fn u).ret = Except.ok (some E1) := by
  simp [Do, startTx, hidle, hbegin, hfn, commitOrRollback, rollback, hkept, hcommit, hrb]

/-- Witness of C4: the commit fails with `disk full`, the rollback succeeds, and
`Do` returns the commit error. -/
theorem Do_commit_error_rollback_ok_witness :
    (Do memSql 0 fnSucceeds (testUow faultyCommitDB)).ret =
      Except.ok (some (GoError.ext 3 "disk full")) :=
  Do_commit_error_rollback_ok memSql 0 fnSucceeds (testUow faultyCommitDB) 0 0
    { faultyCommitDB with opened := 1 } (GoError.ext 3 "disk full") rfl rfl rfl rfl rfl rfl

/-- C5: on a coordinator with no active transaction, when begin succeeds, `fn`
returns nil and `Commit` on the handle `t` the coordinator then holds
succeeds, `Do` returns nil and leaves the transaction pointer nil; the first
call a following `GetRepository` or `Do` makes is then a `BeginTx` on the
database, and the handle `GetRepository` leaves is the one that begin
returned. -/
theorem Do_commit_ok_clears_tx {W : Type} (sql : Sql W) (ctx : Context) (fn : DoFunc W)
    (u : uow W) (tx t : Tx) (db1 : W)
    (hidle : u.tx = none)
    (hbegin : sql.BeginTx ctx u.db = (Except.ok tx, db1))
    (hfn : (fn ctx { u with db := db1, tx := some tx }).ret = Except.ok none)
    (hkept : (fn ctx { u with db := db1, tx := some tx }).u.tx = some t)
    (hcommit : (sql.Commit t (fn ctx { u with db := db1, tx := some tx }).u.db).1 = none) :
    (Do sql ctx fn u).ret = Except.ok none ∧
    (Do sql ctx fn u).u.tx = none ∧
    (∀ (ctx2 : Context) (name : String),
      (∃ rest, (GetRepository sql ctx2 name (Do sql ctx fn u).u).calls
        = Event.BeginTx ctx2 :: rest) ∧
      (GetRepository sql ctx2 name (Do sql ctx fn u).u).u.tx
        = (sql.BeginTx ctx2 (Do sql ctx fn u).u.db).1.toOption) ∧
    (∀ (ctx2 : Context) (fn2 : DoFunc W),
      ∃ rest, (Do sql ctx2 fn2 (Do sql ctx fn u).u).calls = Event.BeginTx ctx2 :: rest) := by
  have hret : (Do sql ctx fn u).ret = Except.ok none := by
    simp [Do, startTx, hidle, hbegin, hfn, commitOrRollback, hkept, hcommit]
  have htx : (Do sql ctx fn u).u.tx = none := by
    simp [Do, startTx, hidle, hbegin, hfn, commitOrRollback, hkept, hcommit]
  refine ⟨hret, htx, ?_, ?_⟩
  · intro ctx2 name
    generalize (Do sql ctx fn u).u = v at htx
    constructor
    · unfold GetRepository startTx
      rw [htx]
      rcases hb : sql.BeginTx ctx2 v.db with ⟨r, d⟩
      cases r with
      | error e => exact ⟨[], by simp⟩
      | ok t2 =>
        cases hr : v.repositories name with
        | none => exact ⟨[], by simp [hr]⟩
        | some rf => exact ⟨[Event.factory name (some t2)], by simp [hr]⟩
    · unfold GetRepository startTx
      rw [htx]
      rcases hb : sql.BeginTx ctx2 v.db with ⟨r, d⟩
      cases r with
      | error e => simp [Except.toOption]
      | ok t2 =>
        cases hr : v.repositories name with
        | none => simp [hr, Except.toOption]
        | some rf => simp [hr, Except.toOption]
  · intro ctx2 fn2
    generalize (Do sql ctx fn u).u = v at htx
    unfold Do startTx
    rw [htx]
    rcases hb : sql.BeginTx ctx2 v.db with ⟨r, d⟩
    cases r with
    | error e => exact ⟨[], by simp⟩
    | ok t2 =>
      simp only []
      cases hf : (fn2 ctx2 { v with db := d, tx := some t2 }).ret with
      | error p => exact ⟨_, by simp [hf]; rfl⟩
      | ok r2 =>
        cases r2 with
        | none => exact ⟨_, by simp [hf]; rfl⟩
        | some e =>
          cases hq : (rollback sql (fn2 ctx2 { v with db := d, tx := some t2 }).u).ret with
          | none => exact ⟨_, by simp [hf, hq]; rfl⟩
          | some e3 => exact ⟨_, by simp [hf, hq]; rfl⟩

/-- Witness of C5: `Test_Do` without the insert; the commit succeeds. -/
theorem Do_commit_ok_clears_tx_witness :
    (Do memSql 0 fnSucceeds (testUow openDB)).ret = Except.ok none ∧
    (Do memSql 0 fnSucceeds (testUow openDB)).u.tx = none ∧
    (∀ (ctx2 : Context) (name : String),
      (∃ rest, (GetRepository memSql ctx2 name (Do memSql 0 fnSucceeds (testUow openDB)).u).calls
        = Event.BeginTx ctx2 :: rest) ∧
      (GetRepository memSql ctx2 name (Do memSql 0 fnSucceeds (testUow openDB)).u).u.tx
        = (memSql.BeginTx ctx2 (Do memSql 0 fnSucceeds (testUow openDB)).u.db).1.toOption) ∧
    (∀ (ctx2 : Context) (fn2 : DoFunc MemDB),
      ∃ rest, (Do memSql ctx2 fn2 (Do memSql 0 fnSucceeds (testUow openDB)).u).calls
        = Event.BeginTx ctx2 :: rest) :=
  Do_commit_ok_clears_tx memSql 0 fnSucceeds (testUow openDB) 0 0
    { openDB with opened := 1 } rfl rfl rfl rfl rfl

/-- C6: on a coordinator whose transaction pointer is set, `Do` returns the
error `transaction already started`, makes no call at all (neither `fn` nor
`BeginTx`, `Commit` or `Rollback`) and leaves the coordinator as it was. -/
theorem Do_already_started {W : Type} (sql : Sql W) (ctx : Context) (fn : DoFunc W)
    (u : uow W) (t : Tx) (hactive : u.tx = some t) :
    (∃ e : GoError, (Do sql ctx fn u).ret = Except.ok (some e) ∧
      e.Error = "transaction already started") ∧
    (Do sql ctx fn u).calls = [] ∧
    (Do sql ctx fn u).u = u := by
  refine ⟨⟨GoError.errorf "transaction already started", ?_, rfl⟩, ?_, ?_⟩ <;>
    simp [Do, startTx, hactive]

/-- Witness of C6: `Do` on a coordinator that holds a handle. -/
theorem Do_already_started_witness :
    (∃ e : GoError, (Do memSql 0 fnSucceeds activeUow).ret = Except.ok (some e) ∧
      e.Error = "transaction already started") ∧
    (Do memSql 0 fnSucceeds activeUow).calls = [] ∧
    (Do memSql 0 fnSucceeds activeUow).u = activeUow :=
  Do_already_started memSql 0 fnSucceeds activeUow 0 rfl

/-! ## The registry and `GetRepository` -/

theorem applyOps_nil {W : Type} (u : uow W) : applyOps [] u = u := rfl

theorem applyOps_snoc {W : Type} (ops : List RegOp) (op : RegOp) (u : uow W) :
    applyOps (ops ++ [op]) u = op.apply (applyOps ops u) := by
  simp [applyOps, List.foldl_append]

theorem applyOps_tx {W : Type} (ops : List RegOp) (u : uow W) : (applyOps ops u).tx = u.tx := by
  induction ops using List.reverseRecOn with
  | nil => rfl
  | append_singleton ops op ih =>
    rw [applyOps_snoc]
    cases op <;> simpa [RegOp.apply, Register, Unregister] using ih

theorem applyOps_db {W : Type} (ops : List RegOp) (u : uow W) : (applyOps ops u).db = u.db := by
  induction ops using List.reverseRecOn with
  | nil => rfl
  | append_singleton ops op ih =>
    rw [applyOps_snoc]
    cases op <;> simpa [RegOp.apply, Register, Unregister] using ih

theorem RegisteredLast_nil (name : String) : ¬ RegisteredLast [] name := by
  rintro ⟨pre, fc, post, h, -⟩
  simp at h

theorem RegisteredLast_snoc_register (ops : List RegOp) (n : String) (fc : RepositoryFactory)
    (name : String) :
    RegisteredLast (ops ++ [RegOp.register n fc]) name ↔ n = name ∨ RegisteredLast ops name := by
  constructor
  · rintro ⟨pre, g, post, h, hpost⟩
    rcases List.eq_nil_or_concat post with hp | ⟨post1, last, hp⟩
    · subst hp
      have h2 : ops ++ [RegOp.register n fc] = pre ++ [RegOp.register name g] := by simpa using h
      have h3 := List.append_inj_right' h2 rfl
      simp at h3
      exact Or.inl h3.1
    · subst hp
      right
      have h2 : ops ++ [RegOp.register n fc] = (pre ++ RegOp.register name g :: post1) ++ [last] := by
        simpa using h
      have h3 := List.append_inj_left' h2 rfl
      refine ⟨pre, g, post1, h3, ?_⟩
      intro op hop
      exact hpost op (by simp [hop])
  · rintro (h | ⟨pre, g, post, h, hpost⟩)
    · subst h
      exact ⟨ops, fc, [], rfl, by simp⟩
    · refine ⟨pre, g, post ++ [RegOp.register n fc], by simp [h], ?_⟩
      intro op hop m hm
      rcases List.mem_append.1 hop with h1 | h1
      · exact hpost op h1 m hm
      · simp at h1
        rw [h1] at hm
        cases hm

theorem RegisteredLast_snoc_unregister (ops : List RegOp) (n : String) (name : String) :
    RegisteredLast (ops ++ [RegOp.unregister n]) name ↔ n ≠ name ∧ RegisteredLast ops name := by
  constructor
  · rintro ⟨pre, g, post, h, hpost⟩
    rcases List.eq_nil_or_concat post with hp | ⟨post1, last, hp⟩
    · subst hp
      have h2 : ops ++ [RegOp.unregister n] = pre ++ [RegOp.register name g] := by simpa using h
      have h3 := List.append_inj_right' h2 rfl
      simp at h3
    · subst hp
      have h2 : ops ++ [RegOp.unregister n] = (pre ++ RegOp.register name g :: post1) ++ [last] := by
        simpa using h
      have h3 := List.append_inj_left' h2 rfl
      have h4 := List.append_inj_right' h2 rfl
      simp at h4
      refine ⟨hpost last (by simp) n h4.symm, pre, g, post1, h3, ?_⟩
      intro op hop
      exact hpost op (by simp [hop])
  · rintro ⟨hn, pre, g, post, h, hpost⟩
    refine ⟨pre, g, post ++ [RegOp.unregister n], by simp [h], ?_⟩
    intro op hop m hm
    rcases List.mem_append.1 hop with h1 | h1
    · exact hpost op h1 m hm
    · simp at h1
      rw [h1] at hm
      cases hm
      exact hn

/-- After a sequence of calls on an empty registry, `name` is a key of the map
exactly when it was registered and not unregistered afterwards. -/
theorem applyOps_registered_iff {W : Type} (ops : List RegOp) (u : uow W) (name : String)
    (hempty : u.repositories = fun _ => none) :
    ((applyOps ops u).repositories name).isSome = true ↔ RegisteredLast ops name := by
  induction ops using List.reverseRecOn with
  | nil =>
    simp [applyOps_nil, hempty, RegisteredLast_nil]
  | append_singleton ops op ih =>
    rw [applyOps_snoc]
    cases op with
    | register n fc =>
      rw [RegisteredLast_snoc_register, ← ih]
      by_cases hn : name = n
      · simp [RegOp.apply, Register, hn]
      · have hn2 : ¬ n = name := fun h => hn h.symm
        simp [RegOp.apply, Register, hn, hn2]
    | unregister n =>
      rw [RegisteredLast_snoc_unregister, ← ih]
      by_cases hn : name = n
      · simp [RegOp.apply, Unregister, hn]
      · have hn2 : ¬ n = name := fun h => hn h.symm
        simp [RegOp.apply, Unregister, hn, hn2]

/-- When the transaction can be started, `GetRepository` returns a nil error
exactly when `name` is a key of the map. -/
theorem GetRepository_ok_iff_key {W : Type} (sql : Sql W) (ctx : Context) (name : String)
    (u : uow W)
    (hstart : u.tx ≠ none ∨ ∃ (tx : Tx) (db1 : W), sql.BeginTx ctx u.db = (Except.ok tx, db1)) :
    (GetRepository sql ctx name u).ret.2 = none ↔ (u.repositories name).isSome = true := by
  cases htx : u.tx with
  | some t =>
    cases hr : u.repositories name <;> simp [GetRepository, startTx, htx, hr]
  | none =>
    rcases hstart with h | ⟨tx, db1, hb⟩
    · exact absurd htx h
    · cases hr : u.repositories name <;> simp [GetRepository, startTx, htx, hb, hr]

/-- C7: take a new coordinator (possibly already holding a handle `h` begun by
an earlier `GetRepository`), apply any sequence of `Register` and `Unregister`
calls; when the transaction can be started (a handle is held, or begin
succeeds), `GetRepository(ctx, name)` returns a nil error iff the sequence
contains a `Register(name, _)` with no `Unregister(name)` after it. -/
theorem GetRepository_ok_iff_registered {W : Type} (sql : Sql W) (ctx : Context)
    (name : String) (ops : List RegOp) (db : W) (h : Option Tx)
    (hstart : h ≠ none ∨ ∃ (tx : Tx) (db1 : W), sql.BeginTx ctx db = (Except.ok tx, db1)) :
    (GetRepository sql ctx name (applyOps ops { NewUow db with tx := h })).ret.2 = none ↔
      RegisteredLast ops name := by
  rw [GetRepository_ok_iff_key, applyOps_registered_iff]
  · rfl
  · rw [applyOps_tx, applyOps_db]
    exact hstart

/-- Witness of C7: `Register("repo1", f)`, `Unregister("repo1")`,
`Register("repo1", f)` on a new coordinator over an open database. -/
theorem GetRepository_ok_iff_registered_witness :
    (GetRepository memSql 0 "repo1"
      (applyOps [RegOp.register "repo1" repoFactory, RegOp.unregister "repo1",
        RegOp.register "repo1" repoFactory] { NewUow openDB with tx := none })).ret.2 = none ↔
      RegisteredLast [RegOp.register "repo1" repoFactory, RegOp.unregister "repo1",
        RegOp.register "repo1" repoFactory] "repo1" :=
  GetRepository_ok_iff_registered memSql 0 "repo1" _ openDB none
    (Or.inr ⟨0, { openDB with opened := 1 }, rfl⟩)

/-- C8: for a name that is not a key of the map, on a coordinator on which
begin succeeds, `GetRepository` returns the error
`"repository not found: " ++ name`; a coordinator that held no handle has
called `BeginTx` and holds the handle it returned, and a coordinator that
held one has called nothing and keeps it. -/
theorem GetRepository_not_found {W : Type} (sql : Sql W) (ctx : Context) (name : String)
    (u : uow W) (tx : Tx) (db1 : W)
    (habsent : u.repositories name = none)
    (hbegin : sql.BeginTx ctx u.db = (Except.ok tx, db1)) :
    (∃ e : GoError, (GetRepository sql ctx name u).ret = (Any.nil, some e) ∧
      e.Error = "repository not found: " ++ name) ∧
    (u.tx = none →
      (GetRepository sql ctx name u).u.tx = some tx ∧
      (GetRepository sql ctx name u).calls = [Event.BeginTx ctx]) ∧
    (∀ t : Tx, u.tx = some t →
      (GetRepository sql ctx name u).u.tx = some t ∧
      (GetRepository sql ctx name u).calls = []) := by
  refine ⟨⟨GoError.errorf ("repository not found: " ++ name), ?_, rfl⟩, ?_, ?_⟩
  · cases htx : u.tx <;> simp [GetRepository, startTx, htx, hbegin, habsent]
  · intro htx
    simp [GetRepository, startTx, htx, hbegin, habsent]
  · intro t htx
    simp [GetRepository, startTx, htx, habsent]

/-- Witness of C8: `Test_GetRepository_Error`, on a new coordinator. -/
theorem GetRepository_not_found_witness :
    (∃ e : GoError, (GetRepository memSql 0 "repo1" (NewUow openDB)).ret = (Any.nil, some e) ∧
      e.Error = "repository not found: " ++ "repo1") ∧
    ((NewUow openDB).tx = none →
      (GetRepository memSql 0 "repo1" (NewUow openDB)).u.tx = some 0 ∧
      (GetRepository memSql 0 "repo1" (NewUow openDB)).calls = [Event.BeginTx 0]) ∧
    (∀ t : Tx, (NewUow openDB).tx = some t →
      (GetRepository memSql 0 "repo1" (NewUow openDB)).u.tx = some t ∧
      (GetRepository memSql 0 "repo1" (NewUow openDB)).calls = []) :=
  GetRepository_not_found memSql 0 "repo1" (NewUow openDB) 0 { openDB with opened := 1 } rfl rfl

/-- C9: on a coordinator with no active transaction, when `BeginTx` fails with
`E`, `GetRepository` returns `(nil, E)` for every name, its only call is that
`BeginTx` (no factory is invoked), the transaction pointer stays nil and the
map is unchanged. -/
theorem GetRepository_begin_error {W : Type} (sql : Sql W) (ctx : Context) (name : String)
    (u : uow W) (E : GoError) (db1 : W)
    (hidle : u.tx = none)
    (hbegin : sql.BeginTx ctx u.db = (Except.error E, db1)) :
    (GetRepository sql ctx name u).ret = (Any.nil, some E) ∧
    (GetRepository sql ctx name u).calls = [Event.BeginTx ctx] ∧
    (GetRepository sql ctx name u).u.tx = none ∧
    (GetRepository sql ctx name u).u.repositories = u.repositories := by
  simp [GetRepository, startTx, hidle, hbegin]

/-- Witness of C9: `Test_GetRepository_ErrorOnFactory`, on a closed database. -/
theorem GetRepository_begin_error_witness :
    (GetRepository memSql 0 "repo1" (testUow closedDB)).ret = (Any.nil, some errDBClosed) ∧
    (GetRepository memSql 0 "repo1" (testUow closedDB)).calls = [Event.BeginTx 0] ∧
    (GetRepository memSql 0 "repo1" (testUow closedDB)).u.tx = none ∧
    (GetRepository memSql 0 "repo1" (testUow closedDB)).u.repositories
      = (testUow closedDB).repositories :=
  GetRepository_begin_error memSql 0 "repo1" (testUow closedDB) errDBClosed closedDB rfl rfl

/-! ## One transaction per `Do` execution -/

theorem beginCount_append (l1 l2 : List Event) :
    beginCount (l1 ++ l2) = beginCount l1 + beginCount l2 := by
  simp [beginCount, List.countP_append]

theorem FactoriesGot_nil (arg : Option Tx) : FactoriesGot arg [] := by
  intro name a h
  simp at h

theorem FactoriesGot_append {arg : Option Tx} {l1 l2 : List Event}
    (h1 : FactoriesGot arg l1) (h2 : FactoriesGot arg l2) : FactoriesGot arg (l1 ++ l2) := by
  intro name a h
  rcases List.mem_append.1 h with h | h
  · exact h1 name a h
  · exact h2 name a h

/-- On a coordinator that holds the handle `t`, `GetRepository` begins nothing,
keeps the handle and hands `t` to the factory it invokes. -/
theorem GetRepository_active {W : Type} (sql : Sql W) (ctx : Context) (name : String)
    (u : uow W) (t : Tx) (htx : u.tx = some t) :
    (GetRepository sql ctx name u).u.tx = some t ∧
    beginCount (GetRepository sql ctx name u).calls = 0 ∧
    FactoriesGot (some t) (GetRepository sql ctx name u).calls := by
  cases hr : u.repositories name with
  | none =>
    simp [GetRepository, startTx, htx, hr, beginCount, FactoriesGot]
  | some rf =>
    simp [GetRepository, startTx, htx, hr, beginCount, FactoriesGot, Event.isBegin]

/-- On a coordinator that holds a handle, `Do` returns at once. -/
theorem Do_active {W : Type} (sql : Sql W) (ctx : Context) (fn : DoFunc W) (u : uow W)
    (t : Tx) (htx : u.tx = some t) :
    Do sql ctx fn u =
      ⟨Except.ok (some (GoError.errorf "transaction already started")), u, []⟩ := by
  simp [Do, startTx, htx]

/-- A body run on a coordinator that holds the handle `t` returns, begins
nothing, leaves the handle in place and has every factory receive `t`. -/
theorem Prog_run_active {W : Type} (sql : Sql W) (p : Prog) :
    ∀ (u : uow W) (t : Tx), u.tx = some t →
      (∃ r, (Prog.run sql p u).ret = Except.ok r) ∧
      (Prog.run sql p u).u.tx = some t ∧
      beginCount (Prog.run sql p u).calls = 0 ∧
      FactoriesGot (some t) (Prog.run sql p u).calls := by
  induction p with
  | ret err =>
    intro u t htx
    exact ⟨⟨err, rfl⟩, htx, rfl, FactoriesGot_nil _⟩
  | register name fc next ih =>
    intro u t htx
    exact ih (Register name fc u) t htx
  | unregister name next ih =>
    intro u t htx
    exact ih (Unregister name u) t htx
  | getRepository ctx name next ih =>
    intro u t htx
    obtain ⟨g1, g2, g3⟩ := GetRepository_active sql ctx name u t htx
    obtain ⟨k1, k2, k3, k4⟩ := ih (GetRepository sql ctx name u).ret.1
      (GetRepository sql ctx name u).ret.2 (GetRepository sql ctx name u).u t g1
    refine ⟨k1, k2, ?_, ?_⟩
    · show beginCount ((GetRepository sql ctx name u).calls ++ _) = 0
      rw [beginCount_append, g2, k3]
    · exact FactoriesGot_append g3 k4
  | nestedDo ctx body next _ ih =>
    intro u t htx
    obtain ⟨k1, k2, k3, k4⟩ :=
      ih (some (GoError.errorf "transaction already started")) u t htx
    have hd := Do_active sql ctx (fun _ v => Prog.run sql body v) u t htx
    simp only [Prog.run, hd, List.nil_append]
    exact ⟨k1, k2, k3, k4⟩

/-- The shape of a `Do` execution that gets past its begin step and whose body
returns with a handle `t` in place: it returns, its calls are the `BeginTx`,
the body, the body's own calls and then one of `Rollback t`, `Commit t`, or
`Commit t` followed by `Rollback t`; the transaction pointer ends nil. -/
theorem Do_resolution_shape {W : Type} (sql : Sql W) (ctx : Context) (fn : DoFunc W)
    (u : uow W) (t0 t : Tx) (d : W) (r : Option GoError)
    (hidle : u.tx = none)
    (hbegin : sql.BeginTx ctx u.db = (Except.ok t0, d))
    (hfn : (fn ctx { u with db := d, tx := some t0 }).ret = Except.ok r)
    (hkept : (fn ctx { u with db := d, tx := some t0 }).u.tx = some t) :
    (∃ r2, (Do sql ctx fn u).ret = Except.ok r2) ∧
    (Do sql ctx fn u).u.tx = none ∧
    ∃ tail : List Event,
      (Do sql ctx fn u).calls = Event.BeginTx ctx :: Event.fn ctx ::
        ((fn ctx { u with db := d, tx := some t0 }).calls ++ tail) ∧
      (tail = [Event.Rollback t] ∨ tail = [Event.Commit t] ∨
        tail = [Event.Commit t, Event.Rollback t]) := by
  unfold Do startTx
  simp only [hidle, hbegin]
  generalize fn ctx { u with db := d, tx := some t0 } = s2 at hfn hkept
  rcases s2 with ⟨ret2, v, calls2⟩
  simp only at hfn hkept
  subst hfn
  cases r with
  | some err =>
    cases hq : (sql.Rollback t v.db).1 <;>
      simp [rollback, hkept, hq]
  | none =>
    cases hc : (sql.Commit t v.db).1 with
    | none => simp [commitOrRollback, hkept, hc]
    | some e1 =>
      cases hq : (sql.Rollback t (sql.Commit t v.db).2).1 <;>
        simp [commitOrRollback, rollback, hkept, hc, hq]

/-- C10, as amended: a `Do` execution that starts with no active transaction
and whose body uses the public operations only returns, calls `BeginTx`
exactly once, and, when that call returned the handle `tx`, every factory
invoked during the execution received `tx`. -/
theorem Do_public_begins_once {W : Type} (sql : Sql W) (ctx : Context) (p : Prog) (u : uow W)
    (hidle : u.tx = none) :
    (∃ r, (Do sql ctx (Prog.fn sql p) u).ret = Except.ok r) ∧
    beginCount (Do sql ctx (Prog.fn sql p) u).calls = 1 ∧
    ∀ (tx : Tx) (db1 : W), sql.BeginTx ctx u.db = (Except.ok tx, db1) →
      FactoriesGot (some tx) (Do sql ctx (Prog.fn sql p) u).calls := by
  rcases hb : sql.BeginTx ctx u.db with ⟨r, d⟩
  cases r with
  | error e =>
    refine ⟨⟨some e, ?_⟩, ?_, ?_⟩
    · simp [Do, startTx, hidle, hb]
    · simp [Do, startTx, hidle, hb, beginCount, Event.isBegin]
    · intro tx db1 h
      cases h
  | ok t0 =>
    obtain ⟨⟨r, k1⟩, k2, k3, k4⟩ :=
      Prog_run_active sql p { u with db := d, tx := some t0 } t0 rfl
    obtain ⟨hret, -, tail, hcalls, htail⟩ :=
      Do_resolution_shape sql ctx (Prog.fn sql p) u t0 t0 d r hidle hb k1 k2
    have hfncalls : (Prog.fn sql p ctx { u with db := d, tx := some t0 }).calls
        = (Prog.run sql p { u with db := d, tx := some t0 }).calls := rfl
    rw [hfncalls] at hcalls
    have htail0 : beginCount tail = 0 := by
      rcases htail with h | h | h <;> subst h <;> rfl
    have htailF : FactoriesGot (some t0) tail := by
      intro name a hmem
      rcases htail with h | h | h <;> subst h <;> simp at hmem
    refine ⟨hret, ?_, ?_⟩
    · rw [hcalls]
      have h1 : beginCount ((Prog.run sql p { u with db := d, tx := some t0 }).calls ++ tail)
          = 0 := by
        rw [beginCount_append, k3, htail0]
      show beginCount ([Event.BeginTx ctx, Event.fn ctx] ++
        ((Prog.run sql p { u with db := d, tx := some t0 }).calls ++ tail)) = 1
      rw [beginCount_append, h1]
      rfl
    · intro tx db1 h
      cases h
      rw [hcalls]
      intro name a hmem
      simp only [List.mem_cons, reduceCtorEq, false_or] at hmem
      exact FactoriesGot_append k4 htailF name a hmem

/-- Witness of C10 as amended: a body that fetches `repo1` three times, once
after a nested `Do`, on `Test_Do`'s coordinator. -/
theorem Do_public_begins_once_witness :
    (∃ r, (Do memSql 0 (Prog.fn memSql fetchTwiceAndNest) (testUow openDB)).ret = Except.ok r) ∧
    beginCount (Do memSql 0 (Prog.fn memSql fetchTwiceAndNest) (testUow openDB)).calls = 1 ∧
    ∀ (tx : Tx) (db1 : MemDB), memSql.BeginTx 0 (testUow openDB).db = (Except.ok tx, db1) →
      FactoriesGot (some tx)
        (Do memSql 0 (Prog.fn memSql fetchTwiceAndNest) (testUow openDB)).calls :=
  Do_public_begins_once memSql 0 fetchTwiceAndNest (testUow openDB) rfl

/-- Counterexample to C10 as stated: a `Do` execution on a coordinator that
already holds a handle (here one begun by an earlier `GetRepository`) has a
public-operations body and calls `BeginTx` zero times, not once. -/
theorem Do_public_begins_once_counterexample :
    (GetRepository memSql 0 "repo1" (testUow openDB)).u.tx = some 0 ∧
    beginCount (Do memSql 0 (Prog.fn memSql (Prog.ret none))
      (GetRepository memSql 0 "repo1" (testUow openDB)).u).calls = 0 ∧
    beginCount (Do memSql 0 (Prog.fn memSql (Prog.ret none))
      (GetRepository memSql 0 "repo1" (testUow openDB)).u).calls ≠ 1 := by
  refine ⟨rfl, rfl, ?_⟩
  decide

/-! ## Registry frame properties -/

theorem uow_eq_of_fields {W : Type} (a b : uow W) (hdb : a.db = b.db) (htx : a.tx = b.tx)
    (hrepo : a.repositories = b.repositories) : a = b := by
  cases a
  cases b
  simp only [uow.mk.injEq]
  exact ⟨hdb, htx, hrepo⟩

/-- Two coordinators that agree on the entry of `k` still agree on it after the
same sequence of calls. -/
theorem applyOps_agree {W : Type} (ops : List RegOp) (k : String) :
    ∀ (a b : uow W), a.repositories k = b.repositories k →
      (applyOps ops a).repositories k = (applyOps ops b).repositories k := by
  induction ops using List.reverseRecOn with
  | nil =>
    intro a b h
    exact h
  | append_singleton ops op ih =>
    intro a b h
    rw [applyOps_snoc, applyOps_snoc]
    have := ih a b h
    cases op with
    | register n fc => simp [RegOp.apply, Register, this]
    | unregister n => simp [RegOp.apply, Unregister, this]

/-- Calls about other names leave the entry of `name` as it was. -/
theorem applyOps_untouched {W : Type} (ops : List RegOp) (name : String)
    (hops : ∀ op ∈ ops, op.name ≠ name) (u : uow W) :
    (applyOps ops u).repositories name = u.repositories name := by
  induction ops using List.reverseRecOn with
  | nil => rfl
  | append_singleton ops op ih =>
    rw [applyOps_snoc]
    have h1 : (applyOps ops u).repositories name = u.repositories name :=
      ih (fun o ho => hops o (by simp [ho]))
    have h2 : op.name ≠ name := hops op (by simp)
    cases op with
    | register n fc =>
      have h3 : ¬ name = n := fun h => h2 h.symm
      simp [RegOp.apply, Register, h3, h1]
    | unregister n =>
      have h3 : ¬ name = n := fun h => h2 h.symm
      simp [RegOp.apply, Unregister, h3, h1]

/-- C11: after `Register(name, f1)` and a later `Register(name, f2)`, with only
calls about other names after the second one, a `GetRepository(ctx, name)`
that succeeds returns `f2` applied to the handle the coordinator holds and
invokes a factory exactly once; the coordinator is the one that the calls
without `Register(name, f1)` would have built, so `f1` plays no part, and the
entries of other names are those the other calls alone would give. -/
theorem Register_twice_GetRepository {W : Type} (sql : Sql W) (ctx : Context) (name : String)
    (f1 f2 : RepositoryFactory) (mid post : List RegOp) (u : uow W)
    (hpost : ∀ op ∈ post, op.name ≠ name)
    (hok : (GetRepository sql ctx name (registerTwice name f1 f2 mid post u)).ret.2 = none) :
    (∃ t : Tx,
      (GetRepository sql ctx name (registerTwice name f1 f2 mid post u)).u.tx = some t ∧
      (GetRepository sql ctx name (registerTwice name f1 f2 mid post u)).ret
        = (f2 (some t), none) ∧
      factoryCalls (GetRepository sql ctx name (registerTwice name f1 f2 mid post u)).calls
        = [Event.factory name (some t)]) ∧
    registerTwice name f1 f2 mid post u = applyOps post (Register name f2 (applyOps mid u)) ∧
    ∀ other : String, other ≠ name →
      (registerTwice name f1 f2 mid post u).repositories other
        = (applyOps post (applyOps mid u)).repositories other := by
  have hkey : (registerTwice name f1 f2 mid post u).repositories name = some f2 := by
    unfold registerTwice
    rw [applyOps_untouched post name hpost]
    simp [Register]
  refine ⟨?_, ?_, ?_⟩
  · generalize registerTwice name f1 f2 mid post u = v at hkey hok
    cases htx : v.tx with
    | some t =>
      refine ⟨t, ?_, ?_, ?_⟩ <;>
        simp [GetRepository, startTx, htx, hkey, factoryCalls, Event.isFactory]
    | none =>
      rcases hb : sql.BeginTx ctx v.db with ⟨r, d⟩
      cases r with
      | error e =>
        simp [GetRepository, startTx, htx, hb] at hok
      | ok t =>
        refine ⟨t, ?_, ?_, ?_⟩ <;>
          simp [GetRepository, startTx, htx, hb, hkey, factoryCalls, Event.isFactory]
  · unfold registerTwice
    congr 1
    apply uow_eq_of_fields
    · simp [Register, applyOps_db]
    · simp [Register, applyOps_tx]
    · funext k
      by_cases hk : k = name
      · simp [Register, hk]
      · have := applyOps_agree mid k (Register name f1 u) u (by simp [Register, hk])
        show (if k = name then some f2 else (applyOps mid (Register name f1 u)).repositories k)
          = (if k = name then some f2 else (applyOps mid u).repositories k)
        rw [this]
  · intro other hother
    unfold registerTwice
    apply applyOps_agree
    have := applyOps_agree mid other (Register name f1 u) u (by simp [Register, hother])
    show (if other = name then some f2
        else (applyOps mid (Register name f1 u)).repositories other)
      = (applyOps mid u).repositories other
    rw [if_neg hother, this]

/-- Witness of C11: `repo1` is registered with the tests' factory and then with
another one, with `repo2` registered in between and afterwards; fetching
`repo1` on an open database gives the second factory's repository. -/
theorem Register_twice_GetRepository_witness :
    (∃ t : Tx,
      (GetRepository memSql 0 "repo1" (registerTwice "repo1" repoFactory otherFactory
        [RegOp.register "repo2" repoFactory] [RegOp.unregister "repo2"] (NewUow openDB))).u.tx
        = some t ∧
      (GetRepository memSql 0 "repo1" (registerTwice "repo1" repoFactory otherFactory
        [RegOp.register "repo2" repoFactory] [RegOp.unregister "repo2"] (NewUow openDB))).ret
        = (otherFactory (some t), none) ∧
      factoryCalls (GetRepository memSql 0 "repo1" (registerTwice "repo1" repoFactory
        otherFactory [RegOp.register "repo2" repoFactory] [RegOp.unregister "repo2"]
        (NewUow openDB))).calls = [Event.factory "repo1" (some t)]) ∧
    registerTwice "repo1" repoFactory otherFactory [RegOp.register "repo2" repoFactory]
        [RegOp.unregister "repo2"] (NewUow openDB)
      = applyOps [RegOp.unregister "repo2"] (Register "repo1" otherFactory
          (applyOps [RegOp.register "repo2" repoFactory] (NewUow openDB))) ∧
    ∀ other : String, other ≠ "repo1" →
      (registerTwice "repo1" repoFactory otherFactory [RegOp.register "repo2" repoFactory]
        [RegOp.unregister "repo2"] (NewUow openDB)).repositories other
        = (applyOps [RegOp.unregister "repo2"]
            (applyOps [RegOp.register "repo2" repoFactory] (NewUow openDB))).repositories other :=
  Register_twice_GetRepository memSql 0 "repo1" repoFactory otherFactory
    [RegOp.register "repo2" repoFactory] [RegOp.unregister "repo2"] (NewUow openDB)
    (by
      intro op hop
      simp only [List.mem_singleton] at hop
      subst hop
      decide)
    rfl

/-- C12: `Unregister(name)` removes the entry of `name` and nothing else: with
`name` absent the coordinator is left exactly as it was, and in every case
the transaction pointer, the database and the entries of other names are
unchanged; `Register(name, fc)` sets the entry of `name` and likewise leaves
the transaction pointer, the database and the other entries unchanged. -/
theorem Register_Unregister_frame {W : Type} (name : String) (fc : RepositoryFactory)
    (u : uow W) :
    (Unregister name u).repositories name = none ∧
    (u.repositories name = none → Unregister name u = u) ∧
    (Unregister name u).tx = u.tx ∧
    (Unregister name u).db = u.db ∧
    (∀ other : String, other ≠ name →
      (Unregister name u).repositories other = u.repositories other) ∧
    (Register name fc u).repositories name = some fc ∧
    (Register name fc u).tx = u.tx ∧
    (Register name fc u).db = u.db ∧
    (∀ other : String, other ≠ name →
      (Register name fc u).repositories other = u.repositories other) := by
  refine ⟨by simp [Unregister], ?_, rfl, rfl, ?_, by simp [Register], rfl, rfl, ?_⟩
  · intro habsent
    refine uow_eq_of_fields (Unregister name u) u rfl rfl ?_
    funext k
    by_cases hk : k = name
    · simp [Unregister, hk, habsent]
    · simp [Unregister, hk]
  · intro other hother
    simp [Unregister, hother]
  · intro other hother
    simp [Register, hother]

/-! ## The rollback helper and failed begins -/

/-- C15: the helper `rollback()`.  With a nil transaction pointer it returns
the error `no active transaction`, calls nothing and changes nothing.  With a
handle `t` it calls `Rollback` on `t` once, returns what that call returned
(nil or its error), and leaves the pointer nil whatever the call returned;
the map is unchanged. -/
theorem rollback_helper {W : Type} (sql : Sql W) (u : uow W) :
    (u.tx = none →
      (∃ e : GoError, (rollback sql u).ret = some e ∧ e.Error = "no active transaction") ∧
      (rollback sql u).calls = [] ∧
      (rollback sql u).u = u) ∧
    (∀ t : Tx, u.tx = some t →
      (rollback sql u).calls = [Event.Rollback t] ∧
      (rollback sql u).ret = (sql.Rollback t u.db).1 ∧
      (rollback sql u).u.tx = none ∧
      (rollback sql u).u.db = (sql.Rollback t u.db).2 ∧
      (rollback sql u).u.repositories = u.repositories) := by
  constructor
  · intro htx
    refine ⟨⟨GoError.errorf "no active transaction", ?_, rfl⟩, ?_, ?_⟩ <;>
      simp [rollback, htx]
  · intro t htx
    simp [rollback, htx]

/-- Witness of C15: the helper on a coordinator that holds the open handle `0`,
which it rolls back. -/
theorem rollback_helper_witness :
    (activeUow.tx = none →
      (∃ e : GoError, (rollback memSql activeUow).ret = some e ∧
        e.Error = "no active transaction") ∧
      (rollback memSql activeUow).calls = [] ∧
      (rollback memSql activeUow).u = activeUow) ∧
    (∀ t : Tx, activeUow.tx = some t →
      (rollback memSql activeUow).calls = [Event.Rollback t] ∧
      (rollback memSql activeUow).ret = (memSql.Rollback t activeUow.db).1 ∧
      (rollback memSql activeUow).u.tx = none ∧
      (rollback memSql activeUow).u.db = (memSql.Rollback t activeUow.db).2 ∧
      (rollback memSql activeUow).u.repositories = activeUow.repositories) :=
  rollback_helper memSql activeUow

/-- C16: on a coordinator with no active transaction, when `BeginTx` fails with
`E`, `Do` returns the very value `E`; its only call is that `BeginTx` (neither
`fn` nor `Commit` nor `Rollback`), and the transaction pointer stays nil. -/
theorem Do_begin_error {W : Type} (sql : Sql W) (ctx : Context) (fn : DoFunc W) (u : uow W)
    (E : GoError) (db1 : W)
    (hidle : u.tx = none)
    (hbegin : sql.BeginTx ctx u.db = (Except.error E, db1)) :
    (Do sql ctx fn u).ret = Except.ok (some E) ∧
    (Do sql ctx fn u).calls = [Event.BeginTx ctx] ∧
    (Do sql ctx fn u).u.tx = none ∧
    (Do sql ctx fn u).u.repositories = u.repositories := by
  simp [Do, startTx, hidle, hbegin]

/-- Witness of C16: `Do` on a closed database. -/
theorem Do_begin_error_witness :
    (Do memSql 0 fnSucceeds (testUow closedDB)).ret = Except.ok (some errDBClosed) ∧
    (Do memSql 0 fnSucceeds (testUow closedDB)).calls = [Event.BeginTx 0] ∧
    (Do memSql 0 fnSucceeds (testUow closedDB)).u.tx = none ∧
    (Do memSql 0 fnSucceeds (testUow closedDB)).u.repositories
      = (testUow closedDB).repositories :=
  Do_begin_error memSql 0 fnSucceeds (testUow closedDB) errDBClosed closedDB rfl rfl

/-! ## Repositories are not cached -/

/-- C17: for a registered name, when a first `GetRepository` succeeds, it and a
second `GetRepository` each invoke the registered factory once, both with the
handle `t` the coordinator holds after the first call; the second call makes
no other call (no `BeginTx`) and leaves the coordinator as it was. -/
theorem GetRepository_twice {W : Type} (sql : Sql W) (ctx1 ctx2 : Context) (name : String)
    (u : uow W) (rf : RepositoryFactory)
    (hreg : u.repositories name = some rf)
    (hok : (GetRepository sql ctx1 name u).ret.2 = none) :
    ∃ t : Tx,
      (GetRepository sql ctx1 name u).u.tx = some t ∧
      (GetRepository sql ctx1 name u).ret = (rf (some t), none) ∧
      factoryCalls (GetRepository sql ctx1 name u).calls = [Event.factory name (some t)] ∧
      (GetRepository sql ctx2 name (GetRepository sql ctx1 name u).u).ret
        = (rf (some t), none) ∧
      (GetRepository sql ctx2 name (GetRepository sql ctx1 name u).u).calls
        = [Event.factory name (some t)] ∧
      (GetRepository sql ctx2 name (GetRepository sql ctx1 name u).u).u
        = (GetRepository sql ctx1 name u).u := by
  cases htx : u.tx with
  | some t =>
    refine ⟨t, ?_, ?_, ?_, ?_, ?_, ?_⟩ <;>
      simp [GetRepository, startTx, htx, hreg, factoryCalls, Event.isFactory]
  | none =>
    rcases hb : sql.BeginTx ctx1 u.db with ⟨r, d⟩
    cases r with
    | error e =>
      simp [GetRepository, startTx, htx, hb] at hok
    | ok t =>
      refine ⟨t, ?_, ?_, ?_, ?_, ?_, ?_⟩ <;>
        simp [GetRepository, startTx, htx, hb, hreg, factoryCalls, Event.isFactory]

/-- Witness of C17: `repo1` fetched twice on the tests' coordinator. -/
theorem GetRepository_twice_witness :
    ∃ t : Tx,
      (GetRepository memSql 0 "repo1" (testUow openDB)).u.tx = some t ∧
      (GetRepository memSql 0 "repo1" (testUow openDB)).ret = (repoFactory (some t), none) ∧
      factoryCalls (GetRepository memSql 0 "repo1" (testUow openDB)).calls
        = [Event.factory "repo1" (some t)] ∧
      (GetRepository memSql 1 "repo1" (GetRepository memSql 0 "repo1" (testUow openDB)).u).ret
        = (repoFactory (some t), none) ∧
      (GetRepository memSql 1 "repo1" (GetRepository memSql 0 "repo1" (testUow openDB)).u).calls
        = [Event.factory "repo1" (some t)] ∧
      (GetRepository memSql 1 "repo1" (GetRepository memSql 0 "repo1" (testUow openDB)).u).u
        = (GetRepository memSql 0 "repo1" (testUow openDB)).u :=
  GetRepository_twice memSql 0 1 "repo1" (testUow openDB) repoFactory rfl rfl

/-! ## Resolution of the transaction by `Do` -/

theorem resolutionCalls_append (l1 l2 : List Event) :
    resolutionCalls (l1 ++ l2) = resolutionCalls l1 ++ resolutionCalls l2 := by
  simp [resolutionCalls]

/-- On a coordinator that holds a handle, `GetRepository` calls neither
`Commit` nor `Rollback`. -/
theorem GetRepository_no_resolution {W : Type} (sql : Sql W) (ctx : Context) (name : String)
    (u : uow W) (t : Tx) (htx : u.tx = some t) :
    resolutionCalls (GetRepository sql ctx name u).calls = [] := by
  cases hr : u.repositories name <;>
    simp [GetRepository, startTx, htx, hr, resolutionCalls, Event.isResolution]

/-- A body run on a coordinator that holds a handle calls neither `Commit` nor
`Rollback`. -/
theorem Prog_run_no_resolution {W : Type} (sql : Sql W) (p : Prog) :
    ∀ (u : uow W) (t : Tx), u.tx = some t →
      resolutionCalls (Prog.run sql p u).calls = [] := by
  induction p with
  | ret err =>
    intro u t htx
    rfl
  | register name fc next ih =>
    intro u t htx
    exact ih (Register name fc u) t htx
  | unregister name next ih =>
    intro u t htx
    exact ih (Unregister name u) t htx
  | getRepository ctx name next ih =>
    intro u t htx
    obtain ⟨g1, -, -⟩ := GetRepository_active sql ctx name u t htx
    have h1 := GetRepository_no_resolution sql ctx name u t htx
    have h2 := ih (GetRepository sql ctx name u).ret.1
      (GetRepository sql ctx name u).ret.2 (GetRepository sql ctx name u).u t g1
    show resolutionCalls ((GetRepository sql ctx name u).calls ++ _) = []
    rw [resolutionCalls_append, h1, h2]
    rfl
  | nestedDo ctx body next _ ih =>
    intro u t htx
    have h2 := ih (some (GoError.errorf "transaction already started")) u t htx
    have hd := Do_active sql ctx (fun _ v => Prog.run sql body v) u t htx
    simp only [Prog.run, hd, List.nil_append]
    exact h2

/-- The calls of a `Do` execution that gets past its begin step and whose body
returns with a handle `t` in place: the `BeginTx`, the body and its calls,
then `Rollback t` when the body returned an error, `Commit t` when it
returned nil and the commit succeeded, `Commit t` and `Rollback t` when the
commit failed. -/
theorem Do_calls_after_fn {W : Type} (sql : Sql W) (ctx : Context) (fn : DoFunc W)
    (u : uow W) (t0 t : Tx) (d : W) (r : Option GoError)
    (hidle : u.tx = none)
    (hbegin : sql.BeginTx ctx u.db = (Except.ok t0, d))
    (hfn : (fn ctx { u with db := d, tx := some t0 }).ret = Except.ok r)
    (hkept : (fn ctx { u with db := d, tx := some t0 }).u.tx = some t) :
    (r ≠ none →
      (Do sql ctx fn u).calls = Event.BeginTx ctx :: Event.fn ctx ::
        ((fn ctx { u with db := d, tx := some t0 }).calls ++ [Event.Rollback t])) ∧
    (r = none → (sql.Commit t (fn ctx { u with db := d, tx := some t0 }).u.db).1 = none →
      (Do sql ctx fn u).calls = Event.BeginTx ctx :: Event.fn ctx ::
        ((fn ctx { u with db := d, tx := some t0 }).calls ++ [Event.Commit t])) ∧
    (r = none → (sql.Commit t (fn ctx { u with db := d, tx := some t0 }).u.db).1 ≠ none →
      (Do sql ctx fn u).calls = Event.BeginTx ctx :: Event.fn ctx ::
        ((fn ctx { u with db := d, tx := some t0 }).calls
          ++ [Event.Commit t, Event.Rollback t])) := by
  unfold Do startTx
  simp only [hidle, hbegin]
  generalize fn ctx { u with db := d, tx := some t0 } = s2 at hfn hkept
  rcases s2 with ⟨ret2, v, calls2⟩
  simp only at hfn hkept
  subst hfn
  cases r with
  | some err =>
    cases hq : (sql.Rollback t v.db).1 <;>
      simp [rollback, hkept, hq]
  | none =>
    cases hc : (sql.Commit t v.db).1 with
    | none => simp [commitOrRollback, hkept, hc]
    | some e1 =>
      cases hq : (sql.Rollback t (sql.Commit t v.db).2).1 <;>
        simp [commitOrRollback, rollback, hkept, hc, hq]

/-- C13: a `Do` execution that gets past its begin step (no transaction was
active and `BeginTx` succeeded) and whose body uses the public operations
only returns with the transaction pointer nil, whatever the body returned and
whatever `Commit` and `Rollback` returned. -/
theorem Do_public_clears_tx {W : Type} (sql : Sql W) (ctx : Context) (p : Prog) (u : uow W)
    (tx : Tx) (db1 : W)
    (hidle : u.tx = none)
    (hbegin : sql.BeginTx ctx u.db = (Except.ok tx, db1)) :
    (∃ r, (Do sql ctx (Prog.fn sql p) u).ret = Except.ok r) ∧
    (Do sql ctx (Prog.fn sql p) u).u.tx = none := by
  obtain ⟨⟨r, k1⟩, k2, -, -⟩ :=
    Prog_run_active sql p { u with db := db1, tx := some tx } tx rfl
  obtain ⟨hret, htx, -⟩ :=
    Do_resolution_shape sql ctx (Prog.fn sql p) u tx tx db1 r hidle hbegin k1 k2
  exact ⟨hret, htx⟩

/-- Witness of C13: the body `fetchTwiceAndNest` on the tests' coordinator. -/
theorem Do_public_clears_tx_witness :
    (∃ r, (Do memSql 0 (Prog.fn memSql fetchTwiceAndNest) (testUow openDB)).ret = Except.ok r) ∧
    (Do memSql 0 (Prog.fn memSql fetchTwiceAndNest) (testUow openDB)).u.tx = none :=
  Do_public_clears_tx memSql 0 fetchTwiceAndNest (testUow openDB) 0
    { openDB with opened := 1 } rfl rfl

/-- C14, as amended: take a `Do` execution that gets past its begin step and
whose body returns with a handle `t` still in the transaction pointer and has
itself made no `Commit` or `Rollback` call (directly or through a repository
it fetched).  The `Commit` and `Rollback` calls of the whole execution are
then: one `Rollback` on `t` and no `Commit` when the body returned an error;
one `Commit` on `t` and no `Rollback` when it returned nil and that commit
succeeded; one `Commit` on `t` followed by one `Rollback` on `t` when it
returned nil and that commit failed. -/
theorem Do_resolution_calls {W : Type} (sql : Sql W) (ctx : Context) (fn : DoFunc W)
    (u : uow W) (t0 t : Tx) (d : W) (r : Option GoError)
    (hidle : u.tx = none)
    (hbegin : sql.BeginTx ctx u.db = (Except.ok t0, d))
    (hfn : (fn ctx { u with db := d, tx := some t0 }).ret = Except.ok r)
    (hkept : (fn ctx { u with db := d, tx := some t0 }).u.tx = some t)
    (hquiet : resolutionCalls (fn ctx { u with db := d, tx := some t0 }).calls = []) :
    (r ≠ none →
      resolutionCalls (Do sql ctx fn u).calls = [Event.Rollback t]) ∧
    (r = none → (sql.Commit t (fn ctx { u with db := d, tx := some t0 }).u.db).1 = none →
      resolutionCalls (Do sql ctx fn u).calls = [Event.Commit t]) ∧
    (r = none → (sql.Commit t (fn ctx { u with db := d, tx := some t0 }).u.db).1 ≠ none →
      resolutionCalls (Do sql ctx fn u).calls = [Event.Commit t, Event.Rollback t]) := by
  obtain ⟨c1, c2, c3⟩ := Do_calls_after_fn sql ctx fn u t0 t d r hidle hbegin hfn hkept
  have hfilter : ∀ tail : List Event,
      resolutionCalls (Event.BeginTx ctx :: Event.fn ctx ::
        ((fn ctx { u with db := d, tx := some t0 }).calls ++ tail))
        = resolutionCalls tail := by
    intro tail
    show resolutionCalls ([Event.BeginTx ctx, Event.fn ctx] ++
      ((fn ctx { u with db := d, tx := some t0 }).calls ++ tail)) = _
    rw [resolutionCalls_append, resolutionCalls_append, hquiet]
    rfl
  refine ⟨?_, ?_, ?_⟩
  · intro hr
    rw [c1 hr, hfilter]
    rfl
  · intro hr hc
    rw [c2 hr hc, hfilter]
    rfl
  · intro hr hc
    rw [c3 hr hc, hfilter]
    rfl

/-- Witness of C14 as amended: a body that fetches `repo1` and returns an error
is followed by one `Rollback`; a body that returns nil is followed by one
`Commit`, and on a database whose commit fails by one `Commit` and one
`Rollback`. -/
theorem Do_resolution_calls_witness :
    resolutionCalls (Do memSql 0 (Prog.fn memSql fetchThenFail) (testUow openDB)).calls
      = [Event.Rollback 0] ∧
    resolutionCalls (Do memSql 0 fnSucceeds (testUow openDB)).calls = [Event.Commit 0] ∧
    resolutionCalls (Do memSql 0 fnSucceeds (testUow faultyCommitDB)).calls
      = [Event.Commit 0, Event.Rollback 0] :=
  ⟨(Do_resolution_calls memSql 0 (Prog.fn memSql fetchThenFail) (testUow openDB) 0 0
      { openDB with opened := 1 } (some doError) rfl rfl rfl rfl rfl).1
      (Option.some_ne_none doError),
    (Do_resolution_calls memSql 0 fnSucceeds (testUow openDB) 0 0
      { openDB with opened := 1 } none rfl rfl rfl rfl rfl).2.1 rfl rfl,
    (Do_resolution_calls memSql 0 fnSucceeds (testUow faultyCommitDB) 0 0
      { faultyCommitDB with opened := 1 } none rfl rfl rfl rfl rfl).2.2 rfl
      (Option.some_ne_none (GoError.ext 3 "disk full"))⟩

/-- A body that stays within the public operations of the coordinator but
rolls the handle back through the repository it fetched also makes `Rollback`
run twice: the factory hands the transaction pointer to the repository. -/
theorem Do_rollback_through_repository :
    (fnRollsBackThroughRepo 0
      { testUow { openDB with opened := 1 } with tx := some 0 }).u.tx = some 0 ∧
    resolutionCalls (Do memSql 0 fnRollsBackThroughRepo (testUow openDB)).calls
      = [Event.Rollback 0, Event.Rollback 0] := by
  exact ⟨rfl, rfl⟩

/-- Counterexample to C14 as stated: in `Test_Do_RollbackError` the body rolls
the handle back itself and returns an error, and `Do` rolls it back again, so
`Rollback` is called twice on the handle during the execution. -/
theorem Do_resolution_calls_counterexample :
    (fnRollsBackThenFails 0 { testUow { openDB with opened := 1 } with tx := some 0 }).ret
      = Except.ok (some doError) ∧
    resolutionCalls (Do memSql 0 fnRollsBackThenFails (testUow openDB)).calls
      = [Event.Rollback 0, Event.Rollback 0] ∧
    (resolutionCalls (Do memSql 0 fnRollsBackThenFails (testUow openDB)).calls).count
      (Event.Rollback 0) ≠ 1 := by
  refine ⟨rfl, rfl, ?_⟩
  decide

/-- C18: after a `GetRepository` made outside `Do` on which `BeginTx` succeeded
with the handle `tx` (whether or not the name was registered), any later
calls of the public operations leave the transaction pointer at `tx` and call
neither `BeginTx` nor `Commit` nor `Rollback`, and every later `Do` returns
the error `transaction already started` without any call, `fn` included, and
leaves the coordinator as it was. -/
theorem GetRepository_outside_Do_never_resolved {W : Type} (sql : Sql W) (ctx : Context)
    (name : String) (u : uow W) (tx : Tx) (db1 : W)
    (hidle : u.tx = none)
    (hbegin : sql.BeginTx ctx u.db = (Except.ok tx, db1)) :
    (GetRepository sql ctx name u).u.tx = some tx ∧
    ∀ p : Prog,
      (∃ r, (Prog.run sql p (GetRepository sql ctx name u).u).ret = Except.ok r) ∧
      (Prog.run sql p (GetRepository sql ctx name u).u).u.tx = some tx ∧
      beginCount (Prog.run sql p (GetRepository sql ctx name u).u).calls = 0 ∧
      resolutionCalls (Prog.run sql p (GetRepository sql ctx name u).u).calls = [] ∧
      ∀ (ctx2 : Context) (fn : DoFunc W),
        (∃ e : GoError,
          (Do sql ctx2 fn (Prog.run sql p (GetRepository sql ctx name u).u).u).ret
            = Except.ok (some e) ∧ e.Error = "transaction already started") ∧
        (Do sql ctx2 fn (Prog.run sql p (GetRepository sql ctx name u).u).u).calls = [] ∧
        (Do sql ctx2 fn (Prog.run sql p (GetRepository sql ctx name u).u).u).u
          = (Prog.run sql p (GetRepository sql ctx name u).u).u := by
  have h0 : (GetRepository sql ctx name u).u.tx = some tx := by
    cases hr : u.repositories name <;> simp [GetRepository, startTx, hidle, hbegin, hr]
  refine ⟨h0, ?_⟩
  intro p
  obtain ⟨k1, k2, k3, -⟩ := Prog_run_active sql p (GetRepository sql ctx name u).u tx h0
  have k5 := Prog_run_no_resolution sql p (GetRepository sql ctx name u).u tx h0
  refine ⟨k1, k2, k3, k5, ?_⟩
  intro ctx2 fn
  have hd := Do_active sql ctx2 fn (Prog.run sql p (GetRepository sql ctx name u).u).u tx k2
  rw [hd]
  exact ⟨⟨_, rfl, rfl⟩, rfl, rfl⟩

/-- Witness of C18: `GetRepository` of an unregistered name on a new
coordinator, followed by the calls of `registerAndFetch`. -/
theorem GetRepository_outside_Do_never_resolved_witness :
    (GetRepository memSql 0 "repo1" (NewUow openDB)).u.tx = some 0 ∧
    (∃ r, (Prog.run memSql registerAndFetch
      (GetRepository memSql 0 "repo1" (NewUow openDB)).u).ret = Except.ok r) ∧
    (Prog.run memSql registerAndFetch
      (GetRepository memSql 0 "repo1" (NewUow openDB)).u).u.tx = some 0 ∧
    beginCount (Prog.run memSql registerAndFetch
      (GetRepository memSql 0 "repo1" (NewUow openDB)).u).calls = 0 ∧
    resolutionCalls (Prog.run memSql registerAndFetch
      (GetRepository memSql 0 "repo1" (NewUow openDB)).u).calls = [] ∧
    ∀ (ctx2 : Context) (fn : DoFunc MemDB),
      (∃ e : GoError,
        (Do memSql ctx2 fn (Prog.run memSql registerAndFetch
          (GetRepository memSql 0 "repo1" (NewUow openDB)).u).u).ret
          = Except.ok (some e) ∧ e.Error = "transaction already started") ∧
      (Do memSql ctx2 fn (Prog.run memSql registerAndFetch
        (GetRepository memSql 0 "repo1" (NewUow openDB)).u).u).calls = [] ∧
      (Do memSql ctx2 fn (Prog.run memSql registerAndFetch
        (GetRepository memSql 0 "repo1" (NewUow openDB)).u).u).u
        = (Prog.run memSql registerAndFetch
            (GetRepository memSql 0 "repo1" (NewUow openDB)).u).u :=
  ⟨(GetRepository_outside_Do_never_resolved memSql 0 "repo1" (NewUow openDB) 0
      { openDB with opened := 1 } rfl rfl).1,
    (GetRepository_outside_Do_never_resolved memSql 0 "repo1" (NewUow openDB) 0
      { openDB with opened := 1 } rfl rfl).2 registerAndFetch⟩

/-! ## Where the text of an error comes from -/

/-- An occurrence of `l` in `A ++ B` lies in `A`, lies in `B`, or straddles the
seam. -/
theorem infix_append_cases {α : Type} {l A B : List α} (h : l <:+: A ++ B) :
    l <:+: A ∨ l <:+: B ∨
      ∃ l1 l2 : List α, l1 ≠ [] ∧ l2 ≠ [] ∧ l = l1 ++ l2 ∧ l1 <:+ A ∧ l2 <+: B := by
  obtain ⟨s, t, hst⟩ := h
  rcases List.append_eq_append_iff.1 hst with ⟨a1, hA, ht⟩ | ⟨c1, hsl, hB⟩
  · exact Or.inl ⟨s, a1, hA.symm⟩
  · rcases List.append_eq_append_iff.1 hsl with ⟨a2, hA, hl⟩ | ⟨c2, hs, hc1⟩
    · by_cases h1 : a2 = []
      · subst h1
        right; left
        refine ⟨[], t, ?_⟩
        simp only [List.nil_append] at hl
        rw [hB, hl]
        simp
      · by_cases h2 : c1 = []
        · subst h2
          left
          refine ⟨s, [], ?_⟩
          simp only [List.append_nil] at hl
          rw [hA, hl]
          simp
        · right; right
          exact ⟨a2, c1, h1, h2, hl, ⟨s, hA.symm⟩, ⟨t, hB.symm⟩⟩
    · right; left
      refine ⟨c2, t, ?_⟩
      rw [hB, hc1]

/-- A text that begins with `c` and ends with `c2` occurs in
`P ++ a ++ D ++ b` only inside `a` or inside `b`, when `c` occurs neither in `P`
nor in `D`, `c2` does not occur in `D`, and `D` has a character `d` that the
text does not have. -/
theorem infix_of_framed {α : Type} (N P a D b rest init : List α) (c c2 d : α)
    (hhead : N = c :: rest) (hlast : N = init ++ [c2])
    (hcP : c ∉ P) (hcD : c ∉ D) (hc2D : c2 ∉ D) (hdD : d ∈ D) (hdN : d ∉ N)
    (h : N <:+: P ++ a ++ D ++ b) : N <:+: a ∨ N <:+: b := by
  have hcN : c ∈ N := by rw [hhead]; simp
  have headIn : ∀ (l1 l2 X : List α), l1 ≠ [] → N = l1 ++ l2 → l1 <:+ X → c ∈ X := by
    intro l1 l2 X hne hN hsuf
    cases l1 with
    | nil => exact absurd rfl hne
    | cons x xs =>
      rw [hhead] at hN
      simp only [List.cons_append, List.cons.injEq] at hN
      apply hsuf.subset
      rw [hN.1]
      simp
  have lastIn : ∀ (l1 l2 X : List α), l2 ≠ [] → N = l1 ++ l2 → l2 <+: X → c2 ∈ X := by
    intro l1 l2 X hne hN hpre
    rcases List.eq_nil_or_concat l2 with h0 | ⟨l3, y, h3⟩
    · exact absurd h0 hne
    · subst h3
      rw [hlast] at hN
      have hN2 : init ++ [c2] = (l1 ++ l3) ++ [y] := by simpa using hN
      have hy := List.append_inj_right' hN2 rfl
      simp only [List.cons.injEq, and_true] at hy
      apply hpre.subset
      rw [hy]
      simp
  rcases infix_append_cases h with h1 | h1 | ⟨l1, l2, hne1, hne2, hN, hsuf, hpre⟩
  · rcases infix_append_cases h1 with h2 | h2 | ⟨l1, l2, hne1, hne2, hN, hsuf, hpre⟩
    · rcases infix_append_cases h2 with h3 | h3 | ⟨l1, l2, hne1, hne2, hN, hsuf, hpre⟩
      · exact absurd (h3.subset hcN) hcP
      · exact Or.inl h3
      · exact absurd (headIn l1 l2 P hne1 hN hsuf) hcP
    · exact absurd (h2.subset hcN) hcD
    · exact absurd (lastIn l1 l2 D hne2 hN hpre) hc2D
  · exact Or.inr h1
  · have hD : D <:+ P ++ a ++ D := ⟨P ++ a, rfl⟩
    rcases List.suffix_or_suffix_of_suffix hsuf hD with h4 | h4
    · exact absurd (headIn l1 l2 D hne1 hN h4) hcD
    · exfalso
      apply hdN
      rw [hN]
      exact List.mem_append_left _ (h4.subset hdD)

/-- The text `no active transaction` occurs in the composed message
`rollback error: a due to: b` only inside `a` or inside `b`. -/
theorem noActive_in_rollbackErrorf (e2 e1 : GoError)
    (h : containsText "no active transaction" (rollbackErrorf e2 e1).Error) :
    containsText "no active transaction" e2.Error ∨
      containsText "no active transaction" e1.Error := by
  unfold containsText at h ⊢
  have hdata : (rollbackErrorf e2 e1).Error.data
      = "rollback error: ".data ++ e2.Error.data ++ " due to: ".data ++ e1.Error.data := by
    simp [rollbackErrorf, GoError.Error]
  rw [hdata] at h
  exact infix_of_framed "no active transaction".data "rollback error: ".data e2.Error.data
    " due to: ".data e1.Error.data "o active transaction".data "no active transactio".data
    'n' 'n' 'd' rfl rfl (by decide) (by decide) (by decide) (by decide) (by decide) h

/-- What `Do` returns when it gets past its begin step and the body returns
with a handle `t` in place. -/
theorem Do_ret_after_fn {W : Type} (sql : Sql W) (ctx : Context) (fn : DoFunc W)
    (u : uow W) (t0 t : Tx) (d : W) (r : Option GoError)
    (hidle : u.tx = none)
    (hbegin : sql.BeginTx ctx u.db = (Except.ok t0, d))
    (hfn : (fn ctx { u with db := d, tx := some t0 }).ret = Except.ok r)
    (hkept : (fn ctx { u with db := d, tx := some t0 }).u.tx = some t) :
    (∀ e : GoError, r = some e →
      (Do sql ctx fn u).ret = Except.ok
        (match (sql.Rollback t (fn ctx { u with db := d, tx := some t0 }).u.db).1 with
          | none => some e
          | some e2 => some (rollbackErrorf e2 e))) ∧
    (r = none →
      (Do sql ctx fn u).ret = Except.ok
        (match (sql.Commit t (fn ctx { u with db := d, tx := some t0 }).u.db).1 with
          | none => none
          | some e1 =>
            match (sql.Rollback t
              (sql.Commit t (fn ctx { u with db := d, tx := some t0 }).u.db).2).1 with
            | none => some e1
            | some e2 => some (rollbackErrorf e2 e1))) := by
  unfold Do startTx
  simp only [hidle, hbegin]
  generalize fn ctx { u with db := d, tx := some t0 } = s2 at hfn hkept
  rcases s2 with ⟨ret2, v, calls2⟩
  simp only at hfn hkept
  subst hfn
  constructor
  · intro e he
    subst he
    cases hq : (sql.Rollback t v.db).1 <;>
      simp [rollback, hkept, hq]
  · intro hr
    subst hr
    cases hc : (sql.Commit t v.db).1 with
    | none => simp [commitOrRollback, hkept, hc]
    | some e1 =>
      cases hq : (sql.Rollback t (sql.Commit t v.db).2).1 <;>
        simp [commitOrRollback, rollback, hkept, hc, hq]

/-- C19: in a `Do` execution that gets past its begin step and whose body uses
the public operations only, the body returns with the transaction pointer
still at the handle `tx`.  So the helper `rollback()` takes its `Rollback`
branch at both places `Do` reaches it, `commitOrRollback()` does not panic,
and `Do` returns.  An error `Do` returns has the text `no active transaction`
in its message only when the body's own error, the error of `Commit` or the
error of `Rollback` has it. -/
theorem Do_public_no_active_unreachable {W : Type} (sql : Sql W) (ctx : Context) (p : Prog)
    (u : uow W) (tx : Tx) (db1 : W)
    (hidle : u.tx = none)
    (hbegin : sql.BeginTx ctx u.db = (Except.ok tx, db1)) :
    (∃ r, (Prog.run sql p { u with db := db1, tx := some tx }).ret = Except.ok r) ∧
    (Prog.run sql p { u with db := db1, tx := some tx }).u.tx = some tx ∧
    (rollback sql (Prog.run sql p { u with db := db1, tx := some tx }).u).calls
      = [Event.Rollback tx] ∧
    (∀ d : W,
      (rollback sql { (Prog.run sql p { u with db := db1, tx := some tx }).u with db := d }).calls
        = [Event.Rollback tx]) ∧
    (∃ r, (commitOrRollback sql (Prog.run sql p { u with db := db1, tx := some tx }).u).ret
      = Except.ok r) ∧
    (∃ r, (Do sql ctx (Prog.fn sql p) u).ret = Except.ok r) ∧
    ∀ e : GoError, (Do sql ctx (Prog.fn sql p) u).ret = Except.ok (some e) →
      containsText "no active transaction" e.Error →
      (∃ ef : GoError,
        (Prog.run sql p { u with db := db1, tx := some tx }).ret = Except.ok (some ef) ∧
        containsText "no active transaction" ef.Error) ∨
      (∃ ec : GoError,
        (sql.Commit tx (Prog.run sql p { u with db := db1, tx := some tx }).u.db).1 = some ec ∧
        containsText "no active transaction" ec.Error) ∨
      (∃ er : GoError,
        ((sql.Rollback tx (Prog.run sql p { u with db := db1, tx := some tx }).u.db).1 = some er ∨
          (sql.Rollback tx (sql.Commit tx
            (Prog.run sql p { u with db := db1, tx := some tx }).u.db).2).1 = some er) ∧
        containsText "no active transaction" er.Error) := by
  obtain ⟨⟨r, k1⟩, k2, -, -⟩ :=
    Prog_run_active sql p { u with db := db1, tx := some tx } tx rfl
  obtain ⟨hret, -, -⟩ :=
    Do_resolution_shape sql ctx (Prog.fn sql p) u tx tx db1 r hidle hbegin k1 k2
  obtain ⟨r1, r2⟩ := Do_ret_after_fn sql ctx (Prog.fn sql p) u tx tx db1 r hidle hbegin k1 k2
  have hfnu : (Prog.fn sql p ctx { u with db := db1, tx := some tx }).u
      = (Prog.run sql p { u with db := db1, tx := some tx }).u := rfl
  rw [hfnu] at r1 r2
  refine ⟨⟨r, k1⟩, k2, ?_, ?_, ?_, hret, ?_⟩
  · simp [rollback, k2]
  · intro d
    simp [rollback, k2]
  · unfold commitOrRollback
    rw [k2]
    cases hc : (sql.Commit tx (Prog.run sql p { u with db := db1, tx := some tx }).u.db).1 with
    | none => exact ⟨none, by simp [hc]⟩
    | some e1 =>
      cases hq : (sql.Rollback tx (sql.Commit tx
          (Prog.run sql p { u with db := db1, tx := some tx }).u.db).2).1 with
      | none => exact ⟨some e1, by simp [rollback, k2, hq, hc]⟩
      | some e2 => exact ⟨some (rollbackErrorf e2 e1), by simp [rollback, k2, hq, hc]⟩
  · intro e he htext
    cases r with
    | some ef =>
      have h1 := r1 ef rfl
      rw [he] at h1
      cases hq : (sql.Rollback tx (Prog.run sql p { u with db := db1, tx := some tx }).u.db).1 with
      | none =>
        rw [hq] at h1
        simp only [Except.ok.injEq, Option.some.injEq] at h1
        subst h1
        exact Or.inl ⟨e, k1, htext⟩
      | some e2 =>
        rw [hq] at h1
        simp only [Except.ok.injEq, Option.some.injEq] at h1
        subst h1
        rcases noActive_in_rollbackErrorf e2 ef htext with h2 | h2
        · exact Or.inr (Or.inr ⟨e2, Or.inl rfl, h2⟩)
        · exact Or.inl ⟨ef, k1, h2⟩
    | none =>
      have h1 := r2 rfl
      rw [he] at h1
      cases hc : (sql.Commit tx (Prog.run sql p { u with db := db1, tx := some tx }).u.db).1 with
      | none =>
        rw [hc] at h1
        simp at h1
      | some e1 =>
        rw [hc] at h1
        cases hq : (sql.Rollback tx (sql.Commit tx
            (Prog.run sql p { u with db := db1, tx := some tx }).u.db).2).1 with
        | none =>
          rw [hq] at h1
          simp only [Except.ok.injEq, Option.some.injEq] at h1
          subst h1
          exact Or.inr (Or.inl ⟨e, rfl, htext⟩)
        | some e2 =>
          rw [hq] at h1
          simp only [Except.ok.injEq, Option.some.injEq] at h1
          subst h1
          rcases noActive_in_rollbackErrorf e2 e1 htext with h2 | h2
          · exact Or.inr (Or.inr ⟨e2, Or.inr rfl, h2⟩)
          · exact Or.inr (Or.inl ⟨e1, rfl, h2⟩)

/-- Witness of C19: a body that fetches `repo1` and returns an error of its
own with the text `no active transaction`; `Do` returns it, and the text is
the body's. -/
theorem Do_public_no_active_unreachable_witness :
    (∃ r, (Prog.run memSql fnSaysNoActive
      { testUow openDB with db := { openDB with opened := 1 }, tx := some 0 }).ret
        = Except.ok r) ∧
    (Prog.run memSql fnSaysNoActive
      { testUow openDB with db := { openDB with opened := 1 }, tx := some 0 }).u.tx = some 0 ∧
    (∃ r, (Do memSql 0 (Prog.fn memSql fnSaysNoActive) (testUow openDB)).ret = Except.ok r) :=
  ⟨(Do_public_no_active_unreachable memSql 0 fnSaysNoActive (testUow openDB) 0
      { openDB with opened := 1 } rfl rfl).1,
    (Do_public_no_active_unreachable memSql 0 fnSaysNoActive (testUow openDB) 0
      { openDB with opened := 1 } rfl rfl).2.1,
    (Do_public_no_active_unreachable memSql 0 fnSaysNoActive (testUow openDB) 0
      { openDB with opened := 1 } rfl rfl).2.2.2.2.2.1⟩

end Uow
